import Mathlib

/-!
# NetworkEntityMultiplexer

A shallow embedding of `Source/Network/NetworkEntityMultiplexer.cpp`: the three
outbound encoders (`update`, `registerSession`, `unregisterSession`) and the
inbound dispatcher `onMessage`, over an explicit model of the byte buffers, the
32-bit `int` arithmetic and the entity registry.

Undefined behaviour of the C++ source (a store through the null pointer returned
by a failed allocation, a read or store past the end of a buffer, a call through a
null entity pointer) is an explicit outcome of the model.
-/

namespace Networking

/-! ## Machine integers and bytes -/

/-- One `char` of memory. -/
abbrev Byte := Fin 256

/-- Smallest value of the 32-bit `int`. -/
def INT_MIN : Int := -2147483648

/-- Largest value of the 32-bit `int`. -/
def INT_MAX : Int := 2147483647

/-- The values an `int` object can hold. -/
def isInt (x : Int) : Prop := INT_MIN ≤ x ∧ x ≤ INT_MAX

instance (x : Int) : Decidable (isInt x) := by
  unfold isInt; infer_instance

/-- Conversion of an arithmetic result to `int`: the value is reduced modulo
2^32 into the range of `int`. This is what `int datalen = msg.len+sizeof(int)`
does: the sum is formed in `size_t` and then narrowed to `int`. -/
def toInt (x : Int) : Int := (x + 2147483648) % 4294967296 - 2147483648

/-- Byte order of the host; the source stores and loads `int` objects in the
native representation, whichever it is. -/
inductive Endian
  | little
  | big
deriving DecidableEq

/-- What the source leaves to the host: the byte order of `int` and the
contents of freshly allocated (uninitialised) memory. -/
structure Host where
  endian : Endian
  junk : Nat → Byte

/-- The byte `n mod 256`. -/
def byteOf (n : Nat) : Byte := ⟨n % 256, Nat.mod_lt n (by decide)⟩

/-- Object representation of the `int` value `v` (two's complement), lowest
address first. -/
def intBytes (e : Endian) (v : Int) : List Byte :=
  let u : Nat := (v % 4294967296).toNat
  match e with
  | .little => [byteOf u, byteOf (u / 256), byteOf (u / 65536), byteOf (u / 16777216)]
  | .big => [byteOf (u / 16777216), byteOf (u / 65536), byteOf (u / 256), byteOf u]

/-- Value of the `int` object made of the four bytes `b0 b1 b2 b3`, lowest
address first. -/
def intOfBytes (e : Endian) (b0 b1 b2 b3 : Byte) : Int :=
  let u : Nat :=
    match e with
    | .little => b0.val + 256 * b1.val + 65536 * b2.val + 16777216 * b3.val
    | .big => b3.val + 256 * b2.val + 65536 * b1.val + 16777216 * b0.val
  if u < 2147483648 then (u : Int) else (u : Int) - 4294967296

/-! ## Buffers -/

/-- Load `*(int*)(buf + off)`. The load is undefined (`none`) unless the four
bytes lie inside the buffer. -/
def readInt (e : Endian) (buf : List Byte) (off : Nat) : Option Int :=
  match buf.drop off with
  | b0 :: b1 :: b2 :: b3 :: _ => some (intOfBytes e b0 b1 b2 b3)
  | _ => none

/-- Overwrite `buf` from offset `off` with `bytes`. The store is undefined
(`none`) when it runs past the end of the buffer. -/
def store (buf : List Byte) (off : Nat) (bytes : List Byte) : Option (List Byte) :=
  if off + bytes.length ≤ buf.length then
    some (buf.take off ++ bytes ++ buf.drop (off + bytes.length))
  else none

/-- Store `*(int*)(buf + off) = v`. -/
def writeInt (e : Endian) (buf : List Byte) (off : Nat) (v : Int) : Option (List Byte) :=
  store buf off (intBytes e v)

/-- The call `memcpy(dst + off, src, n)` with `n` an `int`: `n` converts to
`size_t`, so a negative `n` asks for at least 2^31 bytes, and the copy is
undefined (`none`) when it reads past the end of `src` or writes past the end
of `dst`. -/
def memcpy (dst : List Byte) (off : Nat) (src : List Byte) (n : Int) : Option (List Byte) :=
  if 0 ≤ n ∧ n.toNat ≤ src.length then store dst off (src.take n.toNat) else none

/-- The call `malloc(n)` with `n` an `int`. A non-negative request yields a
buffer of `n` bytes of unspecified content. A negative `n` converts to a
`size_t` of at least 2^31 (2^63 on a 64-bit host), a request that cannot be
met: the result is the null pointer (`none`), which the source never tests
before storing through it. -/
def malloc (junk : Nat → Byte) (n : Int) : Option (List Byte) :=
  if 0 ≤ n then some ((List.range n.toNat).map junk) else none

/-! ## Messages and sessions -/

/-- Modelled from the spec: the message type tag. The constants
`MSG_TYPE_UPDATE`, `MSG_TYPE_REGISTER` and `MSG_TYPE_UNREGISTER` are declared in
a header that is not part of the sources; `other` stands for every value of the
tag that is none of the three. -/
inductive MsgType
  | MSG_TYPE_UPDATE
  | MSG_TYPE_REGISTER
  | MSG_TYPE_UNREGISTER
  | other (code : Nat)
deriving DecidableEq

/-- Modelled from the spec: the `Message` structure `{type, data, len}`; its
declaration is in a header that is not part of the sources. `data` is the
buffer the pointer field refers to and `len` is the `int` length field, which
need not agree with the size of the buffer. -/
structure Message where
  type : MsgType
  data : List Byte
  len : Int
deriving DecidableEq

/-- A `Session*`, identified by its address. -/
abbrev Session := Nat

/-- A `std::set<Session*>`: the addresses it holds in iteration order, which
is strictly ascending, so no session occurs twice. -/
structure SessionSet where
  elems : List Session
  ascending : elems.Pairwise (· < ·)

/-- One call `session->send(&wireMsg)`: the receiving session and the message
it is handed. -/
abbrev Sent := Session × Message

/-! ## Outbound encoders -/

/-- `NetworkEntityMultiplexer::update` (lines 73-100). The result is the
sequence of `send` calls, in the iteration order of the `std::set` (ascending
addresses), or `none` when the body runs into undefined behaviour. -/
def update (h : Host) (id : Int) (sessions : SessionSet) (msg : Message) :
    Option (List Sent) :=
  -- allocate enough memory to hold message header, and payload
  let datalen := toInt (msg.len + 4)
  match malloc h.junk datalen with
  | none => none
  | some data =>
    -- inject header information
    match writeInt h.endian data 0 id with
    | none => none
    | some data =>
      -- inject payload information
      match memcpy data 4 msg.data msg.len with
      | none => none
      | some data =>
        -- create message structure
        let wireMsg : Message := { type := .MSG_TYPE_UPDATE, data := data, len := datalen }
        -- send the message to all the sessions
        some (sessions.elems.map fun s => (s, wireMsg))

/-- `NetworkEntityMultiplexer::registerSession` (lines 130-155). -/
def registerSession (h : Host) (id : Int) (type : Int) (session : Session) (msg : Message) :
    Option (List Sent) :=
  let datalen := toInt (msg.len + 8)
  match malloc h.junk datalen with
  | none => none
  | some data =>
    match writeInt h.endian data 0 id with
    | none => none
    | some data =>
      match writeInt h.endian data 4 type with
      | none => none
      | some data =>
        match memcpy data 8 msg.data msg.len with
        | none => none
        | some data =>
          let wireMsg : Message := { type := .MSG_TYPE_REGISTER, data := data, len := datalen }
          some [(session, wireMsg)]

/-- `NetworkEntityMultiplexer::unregisterSession` (lines 184-208). -/
def unregisterSession (h : Host) (id : Int) (session : Session) (msg : Message) :
    Option (List Sent) :=
  let datalen := toInt (msg.len + 4)
  match malloc h.junk datalen with
  | none => none
  | some data =>
    match writeInt h.endian data 0 id with
    | none => none
    | some data =>
      match memcpy data 4 msg.data msg.len with
      | none => none
      | some data =>
        let wireMsg : Message := { type := .MSG_TYPE_UNREGISTER, data := data, len := datalen }
        some [(session, wireMsg)]

/-- The wire message the encoders build for header bytes `hdr` and input
message `msg`: the header, then the first `msg.len` bytes of the input data. -/
def wireOf (t : MsgType) (hdr : List Byte) (msg : Message) : Message :=
  { type := t, data := hdr ++ msg.data.take msg.len.toNat, len := msg.len + hdr.length }

/-- The input messages on which an encoder with a header of `k` bytes runs
without undefined behaviour: the length field is non-negative, does not exceed
the size of the data it describes, and `len + k` does not overflow `int`. -/
def encodable (k : Int) (msg : Message) : Prop :=
  0 ≤ msg.len ∧ msg.len.toNat ≤ msg.data.length ∧ msg.len + k ≤ INT_MAX

instance (k : Int) (msg : Message) : Decidable (encodable k msg) := by
  unfold encodable; infer_instance

/-- The wire messages that session `s` is handed by a sequence of `send`
calls, in order. -/
def received (sent : List Sent) (s : Session) : List Message :=
  (sent.filter fun p => decide (p.1 = s)).map Prod.snd

/-! ## The entity registry and inbound dispatch -/

/-- A `NetworkEntity*`: the null pointer or the address of an entity. -/
inductive EntityPtr
  | null
  | obj (addr : Nat)
deriving DecidableEq

/-- What the multiplexer does that is visible outside the function body, in
program order: the member functions it calls on entities, the call of its own
`onRegister`, and the changes it makes to the `networkEntities` map. -/
inductive Event
  /-- Call `entity->onUpdate(msg)`. -/
  | onUpdate (entity : Nat) (msg : Message)
  /-- Call `entity->silentRegister(session)`. -/
  | silentRegister (entity : Nat) (session : Session)
  /-- Call `entity->onUnregister(session, msg)`. -/
  | onUnregister (entity : Nat) (session : Session) (msg : Message)
  /-- Call `entity->silentUnregister(session)`. -/
  | silentUnregister (entity : Nat) (session : Session)
  /-- Call `onRegister(id, type, session, msg)` on the multiplexer itself. -/
  | onRegister (id type : Int) (session : Session) (msg : Message)
  /-- An entry holding the null pointer is created for `id` by `operator[]`. -/
  | mapInsert (id : Int)
  /-- The entry of `id` is assigned `p`. -/
  | mapAssign (id : Int) (p : EntityPtr)
  /-- The call `networkEntities.erase(id)`. -/
  | mapErase (id : Int)
deriving DecidableEq

/-- Modelled from the spec: the multiplexer's member `networkEntities`, the
entity registry, a map from `int` keys to entity pointers with `operator[]` and
`erase(key)` (its declaration is in a header that is not part of the sources),
together with the record of the events so far. `networkEntities id = none`
means that `id` has no entry. -/
structure Mux where
  networkEntities : Int → Option EntityPtr
  log : List Event

/-- The multiplexer as constructed: no entity registered, nothing done yet. -/
def Mux.empty : Mux := { networkEntities := fun _ => none, log := [] }

/-- Append one event to the record. -/
def Mux.record (m : Mux) (ev : Event) : Mux := { m with log := m.log ++ [ev] }

/-- The map with the entry of `id` set to `p`. -/
def Mux.set (m : Mux) (id : Int) (p : EntityPtr) : Mux :=
  { m with networkEntities := fun k => if k = id then some p else m.networkEntities k }

/-- The expression `networkEntities[id]`. The subscript operator of a map
returns the mapped pointer and, when `id` has no entry, first creates one
holding the null pointer. -/
def Mux.subscript (m : Mux) (id : Int) : EntityPtr × Mux :=
  match m.networkEntities id with
  | some p => (p, m)
  | none => (.null, (m.set id .null).record (.mapInsert id))

/-- The call `networkEntities.erase(id)`. -/
def Mux.erase (m : Mux) (id : Int) : Mux :=
  { networkEntities := fun k => if k = id then none else m.networkEntities k,
    log := m.log ++ [.mapErase id] }

/-- How a function body of the dispatcher ends. The bodies contain no
`return` statement, so no result value is produced on any path. -/
inductive Outcome
  /-- Control reaches the end of the body, the multiplexer being in `m` at that
  point. For `onMessage`, which is declared `int`, nothing is returned there and
  the language does not define what follows. -/
  | finished (m : Mux)
  /-- A member function is called through a null entity pointer (undefined
  behaviour), the multiplexer being in `m` at that point. -/
  | nullCall (m : Mux)
  /-- A header load reads past the end of `msg.data` (undefined behaviour). -/
  | badRead (m : Mux)

/-- Sequencing of statements: the next statement runs only when the previous
one completed. -/
def Outcome.andThen (o : Outcome) (k : Mux → Outcome) : Outcome :=
  match o with
  | .finished m => k m
  | .nullCall m => .nullCall m
  | .badRead m => .badRead m

/-- The statement `networkEntities[id]->f(...)`: the pointer is fetched with
the subscript operator and the member function is called through it, without
any test of the pointer. `call e` is the event of calling `f` on entity `e`. -/
def Mux.callEntity (m : Mux) (id : Int) (call : Nat → Event) : Outcome :=
  match m.subscript id with
  | (.null, m1) => .nullCall m1
  | (.obj e, m1) => .finished (m1.record (call e))

/-- The statement `networkEntities[id] = onRegister(id, type, session, msg)`:
`onRegister` is called, the entry is fetched with the subscript operator and
the returned pointer is assigned to it. Which of the call and the subscript is
evaluated first does not matter where the statement stands: the statement
before it has already fetched, and so created, the entry of `id`. -/
def Mux.assignRegistered (m : Mux) (onRegister : Int → Int → Session → Message → EntityPtr)
    (id type : Int) (session : Session) (msg : Message) : Mux :=
  let p := onRegister id type session msg
  let m1 := m.record (.onRegister id type session msg)
  let m2 := (m1.subscript id).2
  (m2.set id p).record (.mapAssign id p)

/-- `NetworkEntityMultiplexer::onMessage` (lines 28-46). `onRegister` is the
member function of that name, whose body is not part of the sources: it is
given (id, type, session, msg) and returns the entity pointer to store. The
entity callbacks and `onRegister` are taken not to touch `networkEntities` or
the bytes of `msg` themselves. Within one `case` every `*intPtr` loads the same
four bytes, so the load is written once; `*(intPtr+1)` is first loaded by the
second statement of the REGISTER case. -/
def onMessage (h : Host) (onRegister : Int → Int → Session → Message → EntityPtr)
    (m : Mux) (session : Session) (msg : Message) : Outcome :=
  match msg.type with
  | .MSG_TYPE_UPDATE =>
    match readInt h.endian msg.data 0 with
    | none => .badRead m
    | some id =>
      m.callEntity id (fun e => .onUpdate e msg)
  | .MSG_TYPE_REGISTER =>
    match readInt h.endian msg.data 0 with
    | none => .badRead m
    | some id =>
      (m.callEntity id (fun e => .silentRegister e session)).andThen fun m1 =>
      match readInt h.endian msg.data 4 with
      | none => .badRead m1
      | some type => .finished (m1.assignRegistered onRegister id type session msg)
  | .MSG_TYPE_UNREGISTER =>
    match readInt h.endian msg.data 0 with
    | none => .badRead m
    | some id =>
      (m.callEntity id (fun e => .onUnregister e session msg)).andThen fun m1 =>
      (m1.callEntity id (fun e => .silentUnregister e session)).andThen fun m2 =>
      .finished (m2.erase id)
  | .other _ => .finished m

/-- `NetworkEntityMultiplexer::onUpdate` (lines 232-235). -/
def onUpdate (m : Mux) (id : Int) (msg : Message) : Outcome :=
  m.callEntity id (fun e => .onUpdate e msg)

/-- `NetworkEntityMultiplexer::onUnregister` (lines 260-263). -/
def onUnregister (m : Mux) (id : Int) (session : Session) (msg : Message) : Outcome :=
  m.callEntity id (fun e => .onUnregister e session msg)

/-- The state of the multiplexer that an outcome carries: the state at the
end of the body or, when the behaviour became undefined, the state at that
point. -/
def Outcome.mux : Outcome → Mux
  | .finished m => m
  | .nullCall m => m
  | .badRead m => m

/-- A sequence of arrivals (session, message) dispatched one after the other,
each through `onMessage`; a call that does not complete ends the sequence. -/
def dispatchAll (h : Host) (onRegister : Int → Int → Session → Message → EntityPtr)
    (m : Mux) : List (Session × Message) → Outcome
  | [] => .finished m
  | (s, msg) :: rest =>
    (onMessage h onRegister m s msg).andThen fun m1 => dispatchAll h onRegister m1 rest

/-- Modelled from the spec: the effect of one event on the session-association
set of entity `e`. The class `NetworkEntity` is not part of the sources;
`silentRegister(s)` is taken to add `s` to the set of the entity it is called
on and `silentUnregister(s)` to remove it, and nothing else changes the set. -/
def associate (e : Nat) (set : List Session) (ev : Event) : List Session :=
  match ev with
  | .silentRegister e1 s => if e1 = e then (if s ∈ set then set else s :: set) else set
  | .silentUnregister e1 s => if e1 = e then set.filter (fun x => decide (x ≠ s)) else set
  | _ => set

/-- Modelled from the spec: the session-association set of entity `e` after
the events `evs`, starting from the set `init`. -/
def sessionsOf (e : Nat) (init : List Session) (evs : List Event) : List Session :=
  evs.foldl (associate e) init

/-! ## Sample values -/

/-- A little-endian host whose fresh memory reads as zero bytes. -/
def hostLE : Host := { endian := .little, junk := fun _ => 0 }

/-- A big-endian host whose fresh memory reads as 0xAA bytes. -/
def hostBE : Host := { endian := .big, junk := fun _ => 170 }

/-- The two-byte payload "hi", with a matching length field. -/
def msgHi : Message := { type := .other 0, data := [104, 105], len := 2 }

/-- A payload of 2^31 - 4 zero bytes with a matching length field: the `int`
sum `len + 4` overflows. -/
def msgHuge : Message :=
  { type := .other 0, data := List.replicate 2147483644 0, len := 2147483644 }

/-- A payload of 2^31 - 8 zero bytes with a matching length field: the `int`
sum `len + 8` overflows, `len + 4` does not. -/
def msgHuge8 : Message :=
  { type := .other 0, data := List.replicate 2147483640 0, len := 2147483640 }

/-- The session set holding the sessions 1, 2 and 3. -/
def sessions123 : SessionSet := { elems := [1, 2, 3], ascending := by decide }

/-- A resolver that creates an entity whose address is 100 plus the type code. -/
def sampleOnRegister : Int → Int → Session → Message → EntityPtr :=
  fun _ type _ _ => .obj (100 + type.toNat)

/-- A multiplexer in which id 7 is bound to the entity at address 50. -/
def mux7 : Mux := Mux.empty.set 7 (.obj 50)

/-- The UPDATE wire message for id 7 with payload "tick", little-endian. -/
def updateMsg7 : Message :=
  { type := .MSG_TYPE_UPDATE, data := [7, 0, 0, 0, 116, 105, 99, 107], len := 8 }

/-- The REGISTER wire message for id 7, type code 2, with payload "hi",
little-endian. -/
def registerMsg7 : Message :=
  { type := .MSG_TYPE_REGISTER, data := [7, 0, 0, 0, 2, 0, 0, 0, 104, 105], len := 10 }

/-- The UNREGISTER wire message for id 7 with payload "bye", little-endian. -/
def unregisterMsg7 : Message :=
  { type := .MSG_TYPE_UNREGISTER, data := [7, 0, 0, 0, 98, 121, 101], len := 7 }

/-- A wire message for id 7 whose type tag is none of the three known ones. -/
def otherMsg7 : Message :=
  { type := .other 9, data := [7, 0, 0, 0, 104, 105], len := 6 }

/-- The four-byte payload "tick", with a matching length field. -/
def msgTick : Message := { type := .other 0, data := [116, 105, 99, 107], len := 4 }

/-- The session set holding session 1 only. -/
def sessions1 : SessionSet := { elems := [1], ascending := by decide }

/-! ## Arithmetic and buffer lemmas -/

theorem toInt_eq_self {x : Int} (hx : isInt x) : toInt x = x := by
  unfold isInt INT_MIN INT_MAX at hx
  unfold toInt
  omega

theorem toInt_le_max (x : Int) : toInt x ≤ INT_MAX := by
  unfold INT_MAX toInt
  omega

theorem intBytes_length (e : Endian) (v : Int) : (intBytes e v).length = 4 := by
  cases e <;> rfl

theorem intOfBytes_intBytes (e : Endian) {v : Int} (hv : isInt v) :
    ∃ b0 b1 b2 b3, intBytes e v = [b0, b1, b2, b3] ∧ intOfBytes e b0 b1 b2 b3 = v := by
  unfold isInt INT_MIN INT_MAX at hv
  cases e
  · refine ⟨_, _, _, _, rfl, ?_⟩
    simp only [intOfBytes, byteOf]
    split <;> omega
  · refine ⟨_, _, _, _, rfl, ?_⟩
    simp only [intOfBytes, byteOf]
    split <;> omega

theorem store_length {buf bytes r : List Byte} {off : Nat} (h : store buf off bytes = some r) :
    r.length = buf.length ∧ off + bytes.length ≤ buf.length := by
  unfold store at h
  split at h
  · cases h
    simp only [List.length_append, List.length_take, List.length_drop]
    omega
  · cases h

theorem store_at (pre rest bytes : List Byte) {off : Nat} (ho : off = pre.length)
    (h : bytes.length ≤ rest.length) :
    store (pre ++ rest) off bytes = some (pre ++ bytes ++ rest.drop bytes.length) := by
  subst ho
  unfold store
  rw [if_pos (by simp only [List.length_append]; omega)]
  simp

theorem writeInt_at (e : Endian) (pre rest : List Byte) (v : Int) {off : Nat}
    (ho : off = pre.length) (h : 4 ≤ rest.length) :
    writeInt e (pre ++ rest) off v = some (pre ++ intBytes e v ++ rest.drop 4) := by
  unfold writeInt
  rw [store_at pre rest _ ho (by rw [intBytes_length]; exact h), intBytes_length]

theorem memcpy_at (pre rest src : List Byte) {off : Nat} {n : Int} (ho : off = pre.length)
    (hn : 0 ≤ n) (hs : n.toNat ≤ src.length) (hr : rest.length = n.toNat) :
    memcpy (pre ++ rest) off src n = some (pre ++ src.take n.toNat) := by
  unfold memcpy
  rw [if_pos ⟨hn, hs⟩, store_at pre rest _ ho (by simp only [List.length_take]; omega)]
  have hl : (List.take n.toNat src).length = rest.length := by
    simp only [List.length_take]; omega
  rw [hl, List.drop_length, List.append_nil]

theorem malloc_eq (junk : Nat → Byte) {n : Int} (h : 0 ≤ n) :
    malloc junk n = some ((List.range n.toNat).map junk) := by
  unfold malloc
  rw [if_pos h]

theorem malloc_some {junk : Nat → Byte} {n : Int} {b : List Byte} (h : malloc junk n = some b) :
    0 ≤ n ∧ b.length = n.toNat := by
  unfold malloc at h
  split at h
  · cases h
    simp [*]
  · cases h

theorem memcpy_some {dst src r : List Byte} {off : Nat} {n : Int}
    (h : memcpy dst off src n = some r) :
    0 ≤ n ∧ n.toNat ≤ src.length ∧ off + n.toNat ≤ dst.length ∧ r.length = dst.length := by
  unfold memcpy at h
  split at h
  · next hc =>
    have hs := store_length h
    simp only [List.length_take] at hs
    omega
  · cases h

/-! ## What the encoders compute -/

theorem update_some (h : Host) (id : Int) (sessions : SessionSet) (msg : Message)
    (hm : encodable 4 msg) :
    update h id sessions msg =
      some (sessions.elems.map fun s =>
        (s, wireOf .MSG_TYPE_UPDATE (intBytes h.endian id) msg)) := by
  obtain ⟨h0, hs, hmax⟩ := hm
  have hlen : toInt (msg.len + 4) = msg.len + 4 :=
    toInt_eq_self ⟨by unfold INT_MIN; omega, hmax⟩
  have hsz : (msg.len + 4).toNat = 4 + msg.len.toNat := by omega
  have hw := writeInt_at h.endian [] ((List.range (msg.len + 4).toNat).map h.junk) id rfl
    (by simp only [List.length_map, List.length_range]; omega)
  have hc := memcpy_at (intBytes h.endian id)
    (((List.range (msg.len + 4).toNat).map h.junk).drop 4) msg.data
    (intBytes_length h.endian id).symm h0 hs
    (by simp only [List.length_drop, List.length_map, List.length_range]; omega)
  simp only [List.nil_append, List.length_nil] at hw
  unfold update
  simp only [hlen, malloc_eq _ (show (0 : Int) ≤ msg.len + 4 by omega), hw, hc, wireOf,
    intBytes_length, Nat.cast_ofNat]

theorem update_some_imp {h : Host} {id : Int} {sessions : SessionSet} {msg : Message}
    {out : List Sent} (hu : update h id sessions msg = some out) : encodable 4 msg := by
  unfold update at hu
  simp only [] at hu
  split at hu
  · cases hu
  · next d0 hd0 =>
    split at hu
    · cases hu
    · next d1 hd1 =>
      split at hu
      · cases hu
      · next d2 hd2 =>
        have h0 := malloc_some hd0
        have h1 := store_length hd1
        have h2 := memcpy_some hd2
        have hmax := toInt_le_max (msg.len + 4)
        unfold encodable
        omega

theorem registerSession_some (h : Host) (id type : Int) (session : Session) (msg : Message)
    (hm : encodable 8 msg) :
    registerSession h id type session msg =
      some [(session, wireOf .MSG_TYPE_REGISTER (intBytes h.endian id ++ intBytes h.endian type)
        msg)] := by
  obtain ⟨h0, hs, hmax⟩ := hm
  have hlen : toInt (msg.len + 8) = msg.len + 8 :=
    toInt_eq_self ⟨by unfold INT_MIN; omega, hmax⟩
  have hsz : (msg.len + 8).toNat = 8 + msg.len.toNat := by omega
  have hw := writeInt_at h.endian [] ((List.range (msg.len + 8).toNat).map h.junk) id rfl
    (by simp only [List.length_map, List.length_range]; omega)
  have hv := writeInt_at h.endian (intBytes h.endian id)
    (((List.range (msg.len + 8).toNat).map h.junk).drop 4) type
    (intBytes_length h.endian id).symm
    (by simp only [List.length_drop, List.length_map, List.length_range]; omega)
  have hc := memcpy_at (intBytes h.endian id ++ intBytes h.endian type)
    ((((List.range (msg.len + 8).toNat).map h.junk).drop 4).drop 4) msg.data
    (show 8 = (intBytes h.endian id ++ intBytes h.endian type).length by
      simp only [List.length_append, intBytes_length]) h0 hs
    (by simp only [List.length_drop, List.length_map, List.length_range]; omega)
  simp only [List.nil_append, List.length_nil] at hw
  unfold registerSession
  simp only [hlen, malloc_eq _ (show (0 : Int) ≤ msg.len + 8 by omega), hw, hv, hc, wireOf,
    List.length_append, intBytes_length, Nat.cast_ofNat]
  norm_num

theorem registerSession_some_imp {h : Host} {id type : Int} {session : Session} {msg : Message}
    {out : List Sent} (hu : registerSession h id type session msg = some out) :
    encodable 8 msg := by
  unfold registerSession at hu
  simp only [] at hu
  split at hu
  · cases hu
  · next d0 hd0 =>
    split at hu
    · cases hu
    · next d1 hd1 =>
      split at hu
      · cases hu
      · next d2 hd2 =>
        split at hu
        · cases hu
        · next d3 hd3 =>
          have h0 := malloc_some hd0
          have h1 := store_length hd1
          have h2 := store_length hd2
          have h3 := memcpy_some hd3
          have hmax := toInt_le_max (msg.len + 8)
          unfold encodable
          omega

theorem unregisterSession_some (h : Host) (id : Int) (session : Session) (msg : Message)
    (hm : encodable 4 msg) :
    unregisterSession h id session msg =
      some [(session, wireOf .MSG_TYPE_UNREGISTER (intBytes h.endian id) msg)] := by
  obtain ⟨h0, hs, hmax⟩ := hm
  have hlen : toInt (msg.len + 4) = msg.len + 4 :=
    toInt_eq_self ⟨by unfold INT_MIN; omega, hmax⟩
  have hsz : (msg.len + 4).toNat = 4 + msg.len.toNat := by omega
  have hw := writeInt_at h.endian [] ((List.range (msg.len + 4).toNat).map h.junk) id rfl
    (by simp only [List.length_map, List.length_range]; omega)
  have hc := memcpy_at (intBytes h.endian id)
    (((List.range (msg.len + 4).toNat).map h.junk).drop 4) msg.data
    (intBytes_length h.endian id).symm h0 hs
    (by simp only [List.length_drop, List.length_map, List.length_range]; omega)
  simp only [List.nil_append, List.length_nil] at hw
  unfold unregisterSession
  simp only [hlen, malloc_eq _ (show (0 : Int) ≤ msg.len + 4 by omega), hw, hc, wireOf,
    intBytes_length, Nat.cast_ofNat]

theorem unregisterSession_some_imp {h : Host} {id : Int} {session : Session} {msg : Message}
    {out : List Sent} (hu : unregisterSession h id session msg = some out) :
    encodable 4 msg := by
  unfold unregisterSession at hu
  simp only [] at hu
  split at hu
  · cases hu
  · next d0 hd0 =>
    split at hu
    · cases hu
    · next d1 hd1 =>
      split at hu
      · cases hu
      · next d2 hd2 =>
        have h0 := malloc_some hd0
        have h1 := store_length hd1
        have h2 := memcpy_some hd2
        have hmax := toInt_le_max (msg.len + 4)
        unfold encodable
        omega

/-! ## Header decoding on encoder output -/

theorem intBytes_cons (e : Endian) (v : Int) :
    ∃ b0 b1 b2 b3, intBytes e v = [b0, b1, b2, b3] := by
  cases e <;> exact ⟨_, _, _, _, rfl⟩

theorem readInt_first (e : Endian) {v : Int} (hv : isInt v) (rest : List Byte) :
    readInt e (intBytes e v ++ rest) 0 = some v := by
  obtain ⟨b0, b1, b2, b3, hb, hval⟩ := intOfBytes_intBytes e hv
  rw [hb]
  simp [readInt, hval]

theorem readInt_second (e : Endian) (a : Int) {v : Int} (hv : isInt v) (rest : List Byte) :
    readInt e (intBytes e a ++ intBytes e v ++ rest) 4 = some v := by
  obtain ⟨a0, a1, a2, a3, ha⟩ := intBytes_cons e a
  obtain ⟨b0, b1, b2, b3, hb, hval⟩ := intOfBytes_intBytes e hv
  rw [ha, hb]
  simp [readInt, hval]

theorem drop_intBytes_append (e : Endian) (v : Int) (rest : List Byte) :
    (intBytes e v ++ rest).drop 4 = rest := by
  rw [← intBytes_length e v, List.drop_left]

theorem encodable_of_len_eq {k : Int} {msg : Message} (hlen : msg.len = msg.data.length)
    (hmax : msg.len + k ≤ INT_MAX) : encodable k msg := by
  unfold encodable
  omega

theorem take_of_len_eq {msg : Message} (hlen : msg.len = msg.data.length) :
    msg.data.take msg.len.toNat = msg.data := by
  apply List.take_of_length_le
  omega

/-! ## Who receives what -/

theorem received_map (l : List Session) (hl : l.Pairwise (· < ·)) (w : Message) (s : Session) :
    received (l.map fun x => (x, w)) s = if s ∈ l then [w] else [] := by
  induction l with
  | nil => simp [received]
  | cons a t ih =>
    rw [List.pairwise_cons] at hl
    have iht := ih hl.2
    unfold received at iht ⊢
    by_cases hs : a = s
    · subst hs
      have hnot : a ∉ t := fun hm => Nat.lt_irrefl a (hl.1 a hm)
      rw [if_neg hnot] at iht
      simp [List.filter_cons, iht]
    · have hs2 : ¬ s = a := fun hh => hs hh.symm
      simp [List.filter_cons, hs, hs2, iht]

/-! ## Dispatch lemmas -/

theorem callEntity_bound {m : Mux} {id : Int} {e : Nat}
    (hE : m.networkEntities id = some (.obj e)) (call : Nat → Event) :
    m.callEntity id call = .finished (m.record (call e)) := by
  simp only [Mux.callEntity, Mux.subscript, hE]

theorem callEntity_absent {m : Mux} {id : Int} (hE : m.networkEntities id = none)
    (call : Nat → Event) :
    m.callEntity id call = .nullCall ((m.set id .null).record (.mapInsert id)) := by
  simp only [Mux.callEntity, Mux.subscript, hE]

theorem wire_of_registerSession {h : Host} {id type : Int} {session s : Session}
    {msg w : Message} (hb : registerSession h id type session msg = some [(s, w)]) :
    w = wireOf .MSG_TYPE_REGISTER (intBytes h.endian id ++ intBytes h.endian type) msg := by
  rw [registerSession_some h id type session msg (registerSession_some_imp hb)] at hb
  simp only [Option.some.injEq, List.cons.injEq, Prod.mk.injEq, and_true] at hb
  exact hb.2.symm

theorem update_case {h : Host} {onRegister : Int → Int → Session → Message → EntityPtr}
    {m : Mux} {session : Session} {msg : Message} {id : Int}
    (htype : msg.type = .MSG_TYPE_UPDATE) (hid : readInt h.endian msg.data 0 = some id) :
    onMessage h onRegister m session msg = m.callEntity id (fun e => .onUpdate e msg) := by
  unfold onMessage
  simp only [htype, hid]

theorem readInt_intBytes_data (e : Endian) {id : Int} (hid : isInt id) {data p : List Byte}
    (hd : data = intBytes e id ++ p) : readInt e data 0 = some id := by
  rw [hd]
  exact readInt_first e hid p

theorem mem_associate_silentRegister (e : Nat) (set : List Session) (s : Session) :
    s ∈ associate e set (.silentRegister e s) := by
  simp only [associate, if_true]
  split
  · assumption
  · exact List.mem_cons_self s set

theorem dispatchAll_updates (h : Host) (onRegister : Int → Int → Session → Message → EntityPtr)
    (id : Int) (E : Nat) (batch : List (Session × Message)) :
    ∀ m : Mux, m.networkEntities id = some (.obj E) →
      (∀ p ∈ batch, p.2.type = .MSG_TYPE_UPDATE ∧ readInt h.endian p.2.data 0 = some id) →
      dispatchAll h onRegister m batch =
        .finished { networkEntities := m.networkEntities,
                    log := m.log ++ batch.map fun p => Event.onUpdate E p.2 } := by
  induction batch with
  | nil =>
    intro m _ _
    simp only [dispatchAll, List.map_nil, List.append_nil]
  | cons a rest ih =>
    intro m hE hall
    obtain ⟨s, msg⟩ := a
    have ha := hall (s, msg) (List.mem_cons_self _ _)
    have hrest : ∀ p ∈ rest, p.2.type = .MSG_TYPE_UPDATE ∧
        readInt h.endian p.2.data 0 = some id :=
      fun p hp => hall p (List.mem_cons_of_mem _ hp)
    have hE1 : (m.record (.onUpdate E msg)).networkEntities id = some (.obj E) := hE
    simp only [dispatchAll, update_case ha.1 ha.2, callEntity_bound hE, Outcome.andThen,
      ih (m.record (.onUpdate E msg)) hE1 hrest]
    simp only [Mux.record, List.map_cons, List.append_assoc, List.singleton_append]

/-! ## Frame lemmas -/

theorem subscript_frame (m : Mux) {i j : Int} (hij : j ≠ i) :
    (m.subscript i).2.networkEntities j = m.networkEntities j := by
  unfold Mux.subscript
  split
  · rfl
  · simp only [Mux.record, Mux.set, if_neg hij]

theorem callEntity_frame (m : Mux) {i j : Int} (hij : j ≠ i) (call : Nat → Event) :
    (m.callEntity i call).mux.networkEntities j = m.networkEntities j := by
  have hs := subscript_frame m hij
  unfold Mux.callEntity
  split
  · next m1 heq =>
    rw [heq] at hs
    exact hs
  · next e m1 heq =>
    rw [heq] at hs
    exact hs

theorem andThen_frame (o : Outcome) (k : Mux → Outcome) (j : Int) (x : Option EntityPtr)
    (ho : o.mux.networkEntities j = x)
    (hk : ∀ m1, m1.networkEntities j = x → (k m1).mux.networkEntities j = x) :
    (o.andThen k).mux.networkEntities j = x := by
  cases o with
  | finished m => exact hk m ho
  | nullCall m => exact ho
  | badRead m => exact ho

theorem assignRegistered_frame (m : Mux)
    (onRegister : Int → Int → Session → Message → EntityPtr) {i j : Int} (hij : j ≠ i)
    (type : Int) (session : Session) (msg : Message) :
    (m.assignRegistered onRegister i type session msg).networkEntities j =
      m.networkEntities j := by
  have hs := subscript_frame (m.record (.onRegister i type session msg)) hij
  simp only [Mux.assignRegistered, Mux.record, Mux.set, if_neg hij] at hs ⊢
  exact hs

theorem erase_frame (m : Mux) {i j : Int} (hij : j ≠ i) :
    (m.erase i).networkEntities j = m.networkEntities j := by
  simp only [Mux.erase, if_neg hij]

theorem onMessage_frame (h : Host) (onRegister : Int → Int → Session → Message → EntityPtr)
    (m : Mux) (session : Session) (msg : Message) {i j : Int} (hij : j ≠ i)
    (hid : readInt h.endian msg.data 0 = some i) :
    (onMessage h onRegister m session msg).mux.networkEntities j = m.networkEntities j := by
  unfold onMessage
  split
  · simp only [hid]
    exact callEntity_frame m hij _
  · simp only [hid]
    apply andThen_frame _ _ _ _ (callEntity_frame m hij _)
    intro m1 hm1
    split
    · exact hm1
    · simp only [Outcome.mux, assignRegistered_frame m1 onRegister hij, hm1]
  · simp only [hid]
    apply andThen_frame _ _ _ _ (callEntity_frame m hij _)
    intro m1 hm1
    apply andThen_frame _ _ _ _ ((callEntity_frame m1 hij _).trans hm1)
    intro m2 hm2
    simp only [Outcome.mux, erase_frame m2 hij, hm2]
  · rfl

theorem onMessage_finishes (h : Host) (onRegister : Int → Int → Session → Message → EntityPtr)
    (m : Mux) (session : Session) (msg : Message) {i : Int} {E : Nat}
    (hid : readInt h.endian msg.data 0 = some i)
    (hE : m.networkEntities i = some (.obj E))
    (hty : msg.type = .MSG_TYPE_REGISTER → readInt h.endian msg.data 4 ≠ none) :
    ∃ m1, onMessage h onRegister m session msg = .finished m1 := by
  unfold onMessage
  split
  · simp only [hid, callEntity_bound hE]
    exact ⟨_, rfl⟩
  · next ht =>
    simp only [hid, callEntity_bound hE, Outcome.andThen]
    split
    · next hn => exact absurd hn (hty ht)
    · exact ⟨_, rfl⟩
  · have hE1 : ∀ ev, (m.record ev).networkEntities i = some (.obj E) := fun _ => hE
    simp only [hid, callEntity_bound hE, callEntity_bound (hE1 _), Outcome.andThen]
    exact ⟨_, rfl⟩
  · exact ⟨_, rfl⟩

/-! ## Header loads -/

theorem readInt_ne_none (e : Endian) (buf : List Byte) (off : Nat)
    (hl : off + 4 ≤ buf.length) : readInt e buf off ≠ none := by
  unfold readInt
  have hd : 4 ≤ (buf.drop off).length := by
    rw [List.length_drop]
    omega
  split
  · exact Option.some_ne_none _
  · next hno =>
    exfalso
    match hb : buf.drop off, hd with
    | b0 :: b1 :: b2 :: b3 :: t, _ => exact hno b0 b1 b2 b3 t hb
    | [], hd => simp at hd
    | [_], hd => simp at hd
    | [_, _], hd => simp at hd
    | [_, _, _], hd => simp at hd

theorem callEntity_ne_badRead (m : Mux) (id : Int) (call : Nat → Event) (m1 : Mux) :
    m.callEntity id call ≠ .badRead m1 := by
  unfold Mux.callEntity
  split <;> exact Outcome.noConfusion

theorem onMessage_badRead {h : Host} {onRegister : Int → Int → Session → Message → EntityPtr}
    {m m1 : Mux} {session : Session} {msg : Message}
    (hb : onMessage h onRegister m session msg = .badRead m1) :
    readInt h.endian msg.data 0 = none ∨
      (msg.type = .MSG_TYPE_REGISTER ∧ readInt h.endian msg.data 4 = none) := by
  unfold onMessage at hb
  split at hb
  · split at hb
    · next hn => exact Or.inl hn
    · exact absurd hb (callEntity_ne_badRead _ _ _ _)
  · next ht =>
    split at hb
    · next hn => exact Or.inl hn
    · cases hc : m.callEntity _ (fun e => Event.silentRegister e session) with
      | finished m2 =>
        rw [hc] at hb
        simp only [Outcome.andThen] at hb
        split at hb
        · next hn => exact Or.inr ⟨ht, hn⟩
        · cases hb
      | nullCall m2 =>
        rw [hc] at hb
        cases hb
      | badRead m2 => exact absurd hc (callEntity_ne_badRead _ _ _ _)
  · split at hb
    · next hn => exact Or.inl hn
    · cases hc : m.callEntity _ (fun e => Event.onUnregister e session msg) with
      | finished m2 =>
        rw [hc] at hb
        simp only [Outcome.andThen] at hb
        cases hd : m2.callEntity _ (fun e => Event.silentUnregister e session) with
        | finished m3 =>
          rw [hd] at hb
          cases hb
        | nullCall m3 =>
          rw [hd] at hb
          cases hb
        | badRead m3 => exact absurd hd (callEntity_ne_badRead _ _ _ _)
      | nullCall m2 =>
        rw [hc] at hb
        cases hb
      | badRead m2 => exact absurd hc (callEntity_ne_badRead _ _ _ _)
  · cases hb

theorem wireOf_length (t : MsgType) (hdr : List Byte) (msg : Message) :
    hdr.length ≤ (wireOf t hdr msg).data.length := by
  simp only [wireOf, List.length_append]
  omega

/-! ## Claims -/

/-- C1 (counterexample). On a little-endian host, for id 7 and a payload of
2^31 - 4 zero bytes whose length field matches, `update` builds no wire message
for session 1: `int datalen = msg.len+sizeof(int)` wraps to a negative value,
the allocation fails and the header store goes through the null pointer. There
is nothing to decode back to the id and the payload. -/
theorem roundtrip_fails_on_overflow :
    ¬ ∃ w, update hostLE 7 ⟨[1], by decide⟩ msgHuge = some [(1, w)] ∧
      readInt hostLE.endian w.data 0 = some 7 ∧ w.data.drop 4 = msgHuge.data := by
  rintro ⟨w, hw, -⟩
  have hn : update hostLE 7 ⟨[1], by decide⟩ msgHuge = none := by rfl
  rw [hn] at hw
  cases hw

/-- C1 (amended). Round trip: for every 32-bit id, every 32-bit entity-type
code and every payload whose length plus the header size (4 bytes for `update`
and `unregisterSession`, 8 bytes for `registerSession`) does not exceed INT_MAX,
the encoder builds a wire message and decoding it the way `onMessage` does
(bytes [0,4) as id, for REGISTER bytes [4,8) as type, the rest as payload)
yields the original id, the original type code and the original payload. -/
theorem roundtrip (h : Host) (id type : Int) (sessions : SessionSet) (session : Session)
    (msg : Message) (hid : isInt id) (hty : isInt type) (hlen : msg.len = msg.data.length) :
    (msg.len + 4 ≤ INT_MAX →
      ∃ w, update h id sessions msg = some (sessions.elems.map fun s => (s, w)) ∧
        readInt h.endian w.data 0 = some id ∧ w.data.drop 4 = msg.data) ∧
    (msg.len + 8 ≤ INT_MAX →
      ∃ w, registerSession h id type session msg = some [(session, w)] ∧
        readInt h.endian w.data 0 = some id ∧ readInt h.endian w.data 4 = some type ∧
        w.data.drop 8 = msg.data) ∧
    (msg.len + 4 ≤ INT_MAX →
      ∃ w, unregisterSession h id session msg = some [(session, w)] ∧
        readInt h.endian w.data 0 = some id ∧ w.data.drop 4 = msg.data) := by
  refine ⟨fun hmax => ?_, fun hmax => ?_, fun hmax => ?_⟩
  · refine ⟨_, update_some h id sessions msg (encodable_of_len_eq hlen hmax), ?_, ?_⟩
    · exact readInt_first h.endian hid _
    · simp only [wireOf, take_of_len_eq hlen, drop_intBytes_append]
  · refine ⟨_, registerSession_some h id type session msg (encodable_of_len_eq hlen hmax),
      ?_, ?_, ?_⟩
    · simp only [wireOf, List.append_assoc]
      exact readInt_first h.endian hid _
    · exact readInt_second h.endian id hty _
    · simp only [wireOf, take_of_len_eq hlen, List.append_assoc]
      rw [show (8 : Nat) = 4 + 4 from rfl, ← List.drop_drop, drop_intBytes_append,
        drop_intBytes_append]
  · refine ⟨_, unregisterSession_some h id session msg (encodable_of_len_eq hlen hmax), ?_, ?_⟩
    · exact readInt_first h.endian hid _
    · simp only [wireOf, take_of_len_eq hlen, drop_intBytes_append]

/-- C1 (witness). On the big-endian sample host, id -7, type code 2 and the
payload "hi" satisfy the hypotheses, and the REGISTER message built for session
1 decodes to (-7, 2, "hi"). -/
theorem roundtrip_witness :
    isInt (-7) ∧ isInt 2 ∧ msgHi.len = msgHi.data.length ∧ msgHi.len + 8 ≤ INT_MAX ∧
    ∃ w, registerSession hostBE (-7) 2 1 msgHi = some [(1, w)] ∧
      readInt hostBE.endian w.data 0 = some (-7) ∧ readInt hostBE.endian w.data 4 = some 2 ∧
      w.data.drop 8 = msgHi.data :=
  ⟨by decide, by decide, by decide, by decide,
    (roundtrip hostBE (-7) 2 sessions123 1 msgHi (by decide) (by decide) (by decide)).2.1
      (by decide)⟩

/-- C2 (counterexample). For id 7, the session set {1, 2, 3} and a payload of
2^31 - 4 zero bytes, `update` runs into undefined behaviour before any `send`:
session 2, which is in the set, is handed no message. -/
theorem update_broadcast_fails_on_overflow :
    ¬ ∃ sent w, update hostLE 7 sessions123 msgHuge = some sent ∧ received sent 2 = [w] := by
  rintro ⟨sent, w, hs, -⟩
  have hn : update hostLE 7 sessions123 msgHuge = none := by rfl
  rw [hn] at hs
  cases hs

/-- C2 (amended). Broadcast: for every id, every set of sessions S and every
payload of at most INT_MAX - 4 bytes, `update(id, S, payload)` hands each
session in S exactly one wire message, the same for all of them, of type UPDATE,
whose first 4 bytes decode to id and whose remaining bytes are the payload; a
session not in S is handed nothing, and for the empty set nothing is sent. -/
theorem update_broadcast (h : Host) (id : Int) (sessions : SessionSet) (msg : Message)
    (hid : isInt id) (hlen : msg.len = msg.data.length) (hmax : msg.len + 4 ≤ INT_MAX) :
    ∃ sent w, update h id sessions msg = some sent ∧
      w.type = .MSG_TYPE_UPDATE ∧ readInt h.endian w.data 0 = some id ∧
      w.data.drop 4 = msg.data ∧
      (∀ s, s ∈ sessions.elems → received sent s = [w]) ∧
      (∀ s, s ∉ sessions.elems → received sent s = []) ∧
      (sessions.elems = [] → sent = []) := by
  refine ⟨_, wireOf .MSG_TYPE_UPDATE (intBytes h.endian id) msg,
    update_some h id sessions msg (encodable_of_len_eq hlen hmax), rfl, ?_, ?_, ?_, ?_, ?_⟩
  · exact readInt_first h.endian hid _
  · simp only [wireOf, take_of_len_eq hlen, drop_intBytes_append]
  · intro s hs
    rw [received_map _ sessions.ascending, if_pos hs]
  · intro s hs
    rw [received_map _ sessions.ascending, if_neg hs]
  · intro he
    rw [he]
    rfl

/-- C2 (witness). Id 7, the session set {1, 2, 3} and the payload "hi" satisfy
the hypotheses of the broadcast theorem. -/
theorem update_broadcast_witness :
    isInt 7 ∧ msgHi.len = msgHi.data.length ∧ msgHi.len + 4 ≤ INT_MAX ∧
    ∃ sent w, update hostLE 7 sessions123 msgHi = some sent ∧
      w.type = .MSG_TYPE_UPDATE ∧ readInt hostLE.endian w.data 0 = some 7 ∧
      w.data.drop 4 = msgHi.data ∧
      (∀ s, s ∈ sessions123.elems → received sent s = [w]) ∧
      (∀ s, s ∉ sessions123.elems → received sent s = []) ∧
      (sessions123.elems = [] → sent = []) :=
  ⟨by decide, by decide, by decide,
    update_broadcast hostLE 7 sessions123 msgHi (by decide) (by decide) (by decide)⟩

/-- C3 (counterexample). For id 7, type code 2, session 1 and a payload of
2^31 - 8 zero bytes, `registerSession` sends nothing: `msg.len+sizeof(int)*2`
wraps to a negative `int`, the allocation fails and the header store goes
through the null pointer. -/
theorem registerSession_fails_on_overflow :
    ¬ ∃ w, registerSession hostLE 7 2 1 msgHuge8 = some [(1, w)] := by
  rintro ⟨w, hw⟩
  have hn : registerSession hostLE 7 2 1 msgHuge8 = none := by rfl
  rw [hn] at hw
  cases hw

/-- C3 (amended). For every id, entity-type code, session s and payload of at
most INT_MAX - 8 bytes, `registerSession(id, type, s, payload)` sends exactly
one wire message, to s and to no other session; the message has type REGISTER,
its data is the 4 bytes of id, then the 4 bytes of type, then the payload bytes
unchanged. -/
theorem registerSession_sends_one (h : Host) (id type : Int) (session : Session)
    (msg : Message) (hlen : msg.len = msg.data.length) (hmax : msg.len + 8 ≤ INT_MAX) :
    ∃ w, registerSession h id type session msg = some [(session, w)] ∧
      w.type = .MSG_TYPE_REGISTER ∧
      w.data = intBytes h.endian id ++ intBytes h.endian type ++ msg.data := by
  refine ⟨_, registerSession_some h id type session msg (encodable_of_len_eq hlen hmax), rfl,
    ?_⟩
  simp only [wireOf, take_of_len_eq hlen]

/-- C3 (witness). Id 7, type code 2, session 1 and the payload "hi" satisfy the
hypotheses; the data sent is the eight header bytes followed by "hi". -/
theorem registerSession_sends_one_witness :
    msgHi.len = msgHi.data.length ∧ msgHi.len + 8 ≤ INT_MAX ∧
    ∃ w, registerSession hostLE 7 2 1 msgHi = some [(1, w)] ∧
      w.type = .MSG_TYPE_REGISTER ∧
      w.data = intBytes hostLE.endian 7 ++ intBytes hostLE.endian 2 ++ msgHi.data :=
  ⟨by decide, by decide, registerSession_sends_one hostLE 7 2 1 msgHi (by decide) (by decide)⟩

/-- C4 (counterexample). For id 7, session 1 and a payload of 2^31 - 4 zero
bytes, `unregisterSession` sends nothing: `msg.len+sizeof(int)` wraps to a
negative `int`, the allocation fails and the header store goes through the null
pointer. -/
theorem unregisterSession_fails_on_overflow :
    ¬ ∃ w, unregisterSession hostLE 7 1 msgHuge = some [(1, w)] := by
  rintro ⟨w, hw⟩
  have hn : unregisterSession hostLE 7 1 msgHuge = none := by rfl
  rw [hn] at hw
  cases hw

/-- C4 (amended). For every id, session s and payload of at most INT_MAX - 4
bytes, `unregisterSession(id, s, payload)` sends exactly one wire message, to s
and to no other session; the message has type UNREGISTER and its data is the 4
bytes of id followed by the payload bytes unchanged. -/
theorem unregisterSession_sends_one (h : Host) (id : Int) (session : Session)
    (msg : Message) (hlen : msg.len = msg.data.length) (hmax : msg.len + 4 ≤ INT_MAX) :
    ∃ w, unregisterSession h id session msg = some [(session, w)] ∧
      w.type = .MSG_TYPE_UNREGISTER ∧ w.data = intBytes h.endian id ++ msg.data := by
  refine ⟨_, unregisterSession_some h id session msg (encodable_of_len_eq hlen hmax), rfl, ?_⟩
  simp only [wireOf, take_of_len_eq hlen]

/-- C4 (witness). Id 7, session 1 and the payload "hi" satisfy the hypotheses;
the data sent is the four header bytes followed by "hi". -/
theorem unregisterSession_sends_one_witness :
    msgHi.len = msgHi.data.length ∧ msgHi.len + 4 ≤ INT_MAX ∧
    ∃ w, unregisterSession hostBE 7 1 msgHi = some [(1, w)] ∧
      w.type = .MSG_TYPE_UNREGISTER ∧ w.data = intBytes hostBE.endian 7 ++ msgHi.data :=
  ⟨by decide, by decide, unregisterSession_sends_one hostBE 7 1 msgHi (by decide) (by decide)⟩

/-- C5. Length invariant of outbound messages: for every id, type code and
input message whose `len` equals the size of its data, every wire message that
`update`, `registerSession` or `unregisterSession` sends has a `len` field equal
to the number of bytes of its data, which is the input `len` plus 4 (UPDATE,
UNREGISTER) or plus 8 (REGISTER) and is the value the 32-bit `int` arithmetic of
the code gives. The encoders do send when that sum does not exceed INT_MAX. -/
theorem wire_len_invariant (h : Host) (id type : Int) (sessions : SessionSet)
    (session : Session) (msg : Message) (hlen : msg.len = msg.data.length) :
    (∀ sent, update h id sessions msg = some sent → ∀ p ∈ sent,
      p.2.len = p.2.data.length ∧ p.2.len = msg.len + 4 ∧ p.2.len = toInt (msg.len + 4)) ∧
    (∀ sent, registerSession h id type session msg = some sent → ∀ p ∈ sent,
      p.2.len = p.2.data.length ∧ p.2.len = msg.len + 8 ∧ p.2.len = toInt (msg.len + 8)) ∧
    (∀ sent, unregisterSession h id session msg = some sent → ∀ p ∈ sent,
      p.2.len = p.2.data.length ∧ p.2.len = msg.len + 4 ∧ p.2.len = toInt (msg.len + 4)) ∧
    (msg.len + 4 ≤ INT_MAX →
      update h id sessions msg =
        some (sessions.elems.map fun s =>
          (s, wireOf .MSG_TYPE_UPDATE (intBytes h.endian id) msg)) ∧
      unregisterSession h id session msg =
        some [(session, wireOf .MSG_TYPE_UNREGISTER (intBytes h.endian id) msg)]) ∧
    (msg.len + 8 ≤ INT_MAX →
      registerSession h id type session msg =
        some [(session,
          wireOf .MSG_TYPE_REGISTER (intBytes h.endian id ++ intBytes h.endian type) msg)]) := by
  have hmin : INT_MIN ≤ msg.len := by unfold INT_MIN; omega
  have hfacts : ∀ (t : MsgType) (hdr : List Byte) (k : Int), (hdr.length : Int) = k →
      msg.len + k ≤ INT_MAX →
      (wireOf t hdr msg).len = (wireOf t hdr msg).data.length ∧
        (wireOf t hdr msg).len = msg.len + k ∧ (wireOf t hdr msg).len = toInt (msg.len + k) := by
    intro t hdr k hk hmax
    have hto : toInt (msg.len + k) = msg.len + k :=
      toInt_eq_self ⟨by unfold INT_MIN; omega, hmax⟩
    simp only [wireOf, take_of_len_eq hlen, List.length_append, Nat.cast_add, hk, hto]
    exact ⟨by omega, trivial, trivial⟩
  refine ⟨?_, ?_, ?_, ?_, ?_⟩
  · intro sent hs p hp
    have he := update_some_imp hs
    rw [update_some h id sessions msg he] at hs
    cases hs
    obtain ⟨s, -, rfl⟩ := List.mem_map.mp hp
    exact hfacts _ _ 4 (by rw [intBytes_length]; rfl) he.2.2
  · intro sent hs p hp
    have he := registerSession_some_imp hs
    rw [registerSession_some h id type session msg he] at hs
    cases hs
    rw [List.mem_singleton] at hp
    subst hp
    exact hfacts _ _ 8 (by rw [List.length_append, intBytes_length, intBytes_length]; rfl)
      he.2.2
  · intro sent hs p hp
    have he := unregisterSession_some_imp hs
    rw [unregisterSession_some h id session msg he] at hs
    cases hs
    rw [List.mem_singleton] at hp
    subst hp
    exact hfacts _ _ 4 (by rw [intBytes_length]; rfl) he.2.2
  · intro hmax
    exact ⟨update_some h id sessions msg (encodable_of_len_eq hlen hmax),
      unregisterSession_some h id session msg (encodable_of_len_eq hlen hmax)⟩
  · intro hmax
    exact registerSession_some h id type session msg (encodable_of_len_eq hlen hmax)

/-- C5 (witness). The payload "hi" has a matching length field, and the one
message `registerSession` sends for it has `len` 10, the size of its data. -/
theorem wire_len_invariant_witness :
    msgHi.len = msgHi.data.length ∧
    ∀ sent, registerSession hostLE 7 2 1 msgHi = some sent → ∀ p ∈ sent,
      p.2.len = p.2.data.length ∧ p.2.len = msgHi.len + 8 ∧ p.2.len = toInt (msgHi.len + 8) :=
  ⟨by decide, (wire_len_invariant hostLE 7 2 sessions123 1 msgHi (by decide)).2.1⟩

/-- C6. UNREGISTER dispatch: when id is bound to the entity E and the
UNREGISTER message carries id in its header, `onMessage(s, msg)` runs to the
end; what it does is, in this order and nothing else, E's `onUnregister(s, msg)`,
E's `silentUnregister(s)` and the removal of the entry of id. Afterwards id has
no entry and every other entry is as it was. -/
theorem unregister_dispatch (h : Host) (onRegister : Int → Int → Session → Message → EntityPtr)
    (m : Mux) (session : Session) (msg : Message) (id : Int) (E : Nat)
    (htype : msg.type = .MSG_TYPE_UNREGISTER)
    (hid : readInt h.endian msg.data 0 = some id)
    (hE : m.networkEntities id = some (.obj E)) :
    ∃ m1, onMessage h onRegister m session msg = .finished m1 ∧
      m1.log = m.log ++
        [.onUnregister E session msg, .silentUnregister E session, .mapErase id] ∧
      m1.networkEntities id = none ∧
      ∀ k, k ≠ id → m1.networkEntities k = m.networkEntities k := by
  have h1 := callEntity_bound hE (fun e => Event.onUnregister e session msg)
  have hE1 : (m.record (.onUnregister E session msg)).networkEntities id = some (.obj E) := hE
  have h2 := callEntity_bound hE1 (fun e => Event.silentUnregister e session)
  refine ⟨((m.record (.onUnregister E session msg)).record
    (.silentUnregister E session)).erase id, ?_, ?_, ?_, ?_⟩
  · unfold onMessage
    simp only [htype, hid, h1, h2, Outcome.andThen]
  · simp only [Mux.erase, Mux.record, List.append_assoc, List.singleton_append,
      List.cons_append, List.nil_append]
  · simp only [Mux.erase, if_true]
  · intro k hk
    simp only [Mux.erase, Mux.record, if_neg hk]

/-- C6 (witness). With id 7 bound to the entity at address 50, the UNREGISTER
message for id 7 arriving from session 1 satisfies the hypotheses. -/
theorem unregister_dispatch_witness :
    unregisterMsg7.type = .MSG_TYPE_UNREGISTER ∧
    readInt hostLE.endian unregisterMsg7.data 0 = some 7 ∧
    mux7.networkEntities 7 = some (.obj 50) ∧
    ∃ m1, onMessage hostLE sampleOnRegister mux7 1 unregisterMsg7 = .finished m1 ∧
      m1.log = mux7.log ++
        [.onUnregister 50 1 unregisterMsg7, .silentUnregister 50 1, .mapErase 7] ∧
      m1.networkEntities 7 = none ∧
      ∀ k, k ≠ 7 → m1.networkEntities k = mux7.networkEntities k :=
  ⟨by decide, by decide, by decide,
    unregister_dispatch hostLE sampleOnRegister mux7 1 unregisterMsg7 7 50
      (by decide) (by decide) (by decide)⟩

/-- C7. REGISTER dispatch: let w be the message that `registerSession(id, T, s,
msg)` sends, with id and T 32-bit values, and let id be bound to the entity
E_old. Then `onMessage(s, w)` runs to the end; what it does is, in this order
and nothing else, E_old's `silentRegister(s)` (the one silent notification),
the call `onRegister(id, T, s, w)` with id and T as decoded from the header,
and the assignment of the returned pointer to the entry of id. Afterwards id
is mapped to what `onRegister(id, T, s, w)` returned. -/
theorem register_dispatch (h : Host) (onRegister : Int → Int → Session → Message → EntityPtr)
    (m : Mux) (id T : Int) (s : Session) (msg w : Message) (E_old : Nat)
    (hid : isInt id) (hT : isInt T)
    (hbuilt : registerSession h id T s msg = some [(s, w)])
    (hE : m.networkEntities id = some (.obj E_old)) :
    ∃ m1, onMessage h onRegister m s w = .finished m1 ∧
      m1.log = m.log ++
        [.silentRegister E_old s, .onRegister id T s w, .mapAssign id (onRegister id T s w)] ∧
      m1.networkEntities id = some (onRegister id T s w) := by
  have hw := wire_of_registerSession hbuilt
  have htype : w.type = .MSG_TYPE_REGISTER := by rw [hw]; rfl
  have hr0 : readInt h.endian w.data 0 = some id := by
    rw [hw]
    simp only [wireOf, List.append_assoc]
    exact readInt_first h.endian hid _
  have hr4 : readInt h.endian w.data 4 = some T := by
    rw [hw]
    exact readInt_second h.endian id hT _
  have h1 := callEntity_bound hE (fun e => Event.silentRegister e s)
  refine ⟨(m.record (.silentRegister E_old s)).assignRegistered onRegister id T s w,
    ?_, ?_, ?_⟩
  · unfold onMessage
    simp only [htype, hr0, hr4, h1, Outcome.andThen]
  · simp only [Mux.assignRegistered, Mux.subscript, Mux.record, Mux.set, hE,
      List.append_assoc, List.singleton_append, List.cons_append, List.nil_append]
  · simp only [Mux.assignRegistered, Mux.record, Mux.set, if_true]

/-- C7 (witness). Id 7, type code 2, session 1 and the payload "hi" on the
little-endian host give the message `registerMsg7`; with id 7 bound to the
entity at address 50 the hypotheses hold. -/
theorem register_dispatch_witness :
    isInt 7 ∧ isInt 2 ∧ registerSession hostLE 7 2 1 msgHi = some [(1, registerMsg7)] ∧
    mux7.networkEntities 7 = some (.obj 50) ∧
    ∃ m1, onMessage hostLE sampleOnRegister mux7 1 registerMsg7 = .finished m1 ∧
      m1.log = mux7.log ++
        [.silentRegister 50 1, .onRegister 7 2 1 registerMsg7,
          .mapAssign 7 (sampleOnRegister 7 2 1 registerMsg7)] ∧
      m1.networkEntities 7 = some (sampleOnRegister 7 2 1 registerMsg7) :=
  ⟨by decide, by decide, by decide, by decide,
    register_dispatch hostLE sampleOnRegister mux7 7 2 1 msgHi registerMsg7 50
      (by decide) (by decide) (by decide) (by decide)⟩

/-- C8 (what the code does). When id has no entry, a REGISTER message carrying
id in its header does not run to the end: `networkEntities[*intPtr]` creates an
entry holding the null pointer and `silentRegister` is called through it. That
is the only thing done: `onRegister` is not called, and id is left mapped to
the null pointer instead of an entity. -/
theorem register_unknown_id_null_call (h : Host)
    (onRegister : Int → Int → Session → Message → EntityPtr)
    (m : Mux) (session : Session) (msg : Message) (id : Int)
    (htype : msg.type = .MSG_TYPE_REGISTER)
    (hid : readInt h.endian msg.data 0 = some id)
    (hE : m.networkEntities id = none) :
    ∃ m1, onMessage h onRegister m session msg = .nullCall m1 ∧
      m1.log = m.log ++ [.mapInsert id] ∧
      m1.networkEntities id = some .null := by
  refine ⟨(m.set id .null).record (.mapInsert id), ?_, ?_, ?_⟩
  · unfold onMessage
    simp only [htype, hid, callEntity_absent hE, Outcome.andThen]
  · simp only [Mux.record, Mux.set]
  · simp only [Mux.record, Mux.set, if_true]

/-- C8 (witness). On the multiplexer as constructed, the REGISTER message for
id 7 and type code 2 arriving from session 1 ends in a call through the null
pointer. -/
theorem register_unknown_id_null_call_witness :
    registerMsg7.type = .MSG_TYPE_REGISTER ∧
    readInt hostLE.endian registerMsg7.data 0 = some 7 ∧
    Mux.empty.networkEntities 7 = none ∧
    ∃ m1, onMessage hostLE sampleOnRegister Mux.empty 1 registerMsg7 = .nullCall m1 ∧
      m1.log = Mux.empty.log ++ [.mapInsert 7] ∧
      m1.networkEntities 7 = some .null :=
  ⟨by decide, by decide, by decide,
    register_unknown_id_null_call hostLE sampleOnRegister Mux.empty 1 registerMsg7 7
      (by decide) (by decide) (by decide)⟩

/-- C9 (what the code does). When id has no entry, an UPDATE message carrying
id in its header does not run to the end and reports nothing:
`networkEntities[*intPtr]` creates an entry holding the null pointer, so the
registry is changed, and `onUpdate` is called through that null pointer. -/
theorem update_unknown_id_null_call (h : Host)
    (onRegister : Int → Int → Session → Message → EntityPtr)
    (m : Mux) (session : Session) (msg : Message) (id : Int)
    (htype : msg.type = .MSG_TYPE_UPDATE)
    (hid : readInt h.endian msg.data 0 = some id)
    (hE : m.networkEntities id = none) :
    ∃ m1, onMessage h onRegister m session msg = .nullCall m1 ∧
      m1.log = m.log ++ [.mapInsert id] ∧
      m1.networkEntities id = some .null ∧
      m1.networkEntities id ≠ m.networkEntities id := by
  refine ⟨(m.set id .null).record (.mapInsert id), ?_, ?_, ?_, ?_⟩
  · unfold onMessage
    simp only [htype, hid, callEntity_absent hE]
  · simp only [Mux.record, Mux.set]
  · simp only [Mux.record, Mux.set, if_true]
  · simp only [Mux.record, Mux.set, if_true, hE, ne_eq, reduceCtorEq, not_false_eq_true]

/-- C9 (witness). On the multiplexer as constructed, the UPDATE message for id
7 arriving from session 1 ends in a call through the null pointer. -/
theorem update_unknown_id_null_call_witness :
    updateMsg7.type = .MSG_TYPE_UPDATE ∧
    readInt hostLE.endian updateMsg7.data 0 = some 7 ∧
    Mux.empty.networkEntities 7 = none ∧
    ∃ m1, onMessage hostLE sampleOnRegister Mux.empty 1 updateMsg7 = .nullCall m1 ∧
      m1.log = Mux.empty.log ++ [.mapInsert 7] ∧
      m1.networkEntities 7 = some .null ∧
      m1.networkEntities 7 ≠ Mux.empty.networkEntities 7 :=
  ⟨by decide, by decide, by decide,
    update_unknown_id_null_call hostLE sampleOnRegister Mux.empty 1 updateMsg7 7
      (by decide) (by decide) (by decide)⟩

/-- C10 (what the code does). When id has no entry, an UNREGISTER message
carrying id in its header does not run to the end and reports nothing:
`networkEntities[*intPtr]` creates an entry holding the null pointer, so id is
no longer absent, and `onUnregister` is called through that null pointer; the
`erase` that would remove the entry is not reached. -/
theorem unregister_unknown_id_null_call (h : Host)
    (onRegister : Int → Int → Session → Message → EntityPtr)
    (m : Mux) (session : Session) (msg : Message) (id : Int)
    (htype : msg.type = .MSG_TYPE_UNREGISTER)
    (hid : readInt h.endian msg.data 0 = some id)
    (hE : m.networkEntities id = none) :
    ∃ m1, onMessage h onRegister m session msg = .nullCall m1 ∧
      m1.log = m.log ++ [.mapInsert id] ∧
      m1.networkEntities id = some .null ∧
      m1.networkEntities id ≠ m.networkEntities id := by
  refine ⟨(m.set id .null).record (.mapInsert id), ?_, ?_, ?_, ?_⟩
  · unfold onMessage
    simp only [htype, hid, callEntity_absent hE, Outcome.andThen]
  · simp only [Mux.record, Mux.set]
  · simp only [Mux.record, Mux.set, if_true]
  · simp only [Mux.record, Mux.set, if_true, hE, ne_eq, reduceCtorEq, not_false_eq_true]

/-- C10 (witness). On the multiplexer as constructed, the UNREGISTER message
for id 7 arriving from session 1 ends in a call through the null pointer. -/
theorem unregister_unknown_id_null_call_witness :
    unregisterMsg7.type = .MSG_TYPE_UNREGISTER ∧
    readInt hostLE.endian unregisterMsg7.data 0 = some 7 ∧
    Mux.empty.networkEntities 7 = none ∧
    ∃ m1, onMessage hostLE sampleOnRegister Mux.empty 1 unregisterMsg7 = .nullCall m1 ∧
      m1.log = Mux.empty.log ++ [.mapInsert 7] ∧
      m1.networkEntities 7 = some .null ∧
      m1.networkEntities 7 ≠ Mux.empty.networkEntities 7 :=
  ⟨by decide, by decide, by decide,
    unregister_unknown_id_null_call hostLE sampleOnRegister Mux.empty 1 unregisterMsg7 7
      (by decide) (by decide) (by decide)⟩

/-- C11 (what the code does). A message for id 7 whose type is none of UPDATE,
REGISTER, UNREGISTER is not rejected: the `switch` has no `case` for it and no
`default`, so with no statement executed control reaches the end of a body
that is declared `int`, is documented to return an integer indicating the
outcome, and contains no `return`. No error result is produced; the path ends
the same way as the path of a handled message, and what follows the end of
such a body is not defined by the language. -/
theorem unknown_type_not_rejected :
    otherMsg7.type ≠ .MSG_TYPE_UPDATE ∧ otherMsg7.type ≠ .MSG_TYPE_REGISTER ∧
    otherMsg7.type ≠ .MSG_TYPE_UNREGISTER ∧
    onMessage hostLE sampleOnRegister mux7 1 otherMsg7 = .finished mux7 :=
  ⟨by decide, by decide, by decide, rfl⟩

/-- C12 (what the code does). The scenario on the little-endian host, with
session A at address 1. Its first step fails: on the multiplexer as constructed,
the REGISTER message (id 7, type 2, payload "hi") ends in `silentRegister`
called through a null pointer, `onRegister` is never called and id 7 is left
mapped to the null pointer, not to an entity. The middle steps do what the
scenario says once id 7 is bound (here to the entity at address 102):
`update(7, {A}, "tick")` hands A the one UPDATE message `updateMsg7`, and the
UNREGISTER message makes the entity receive `onUnregister` for A, then
`silentUnregister`, and removes the entry of 7. The last step fails again: the
following UPDATE for id 7 creates a null entry for 7 and calls `onUpdate`
through it; nothing is reported. -/
theorem scenario_from_empty_registry :
    (∃ m1, onMessage hostLE sampleOnRegister Mux.empty 1 registerMsg7 = .nullCall m1 ∧
      m1.log = [.mapInsert 7] ∧ m1.networkEntities 7 = some .null) ∧
    update hostLE 7 sessions1 msgTick = some [(1, updateMsg7)] ∧
    readInt hostLE.endian updateMsg7.data 0 = some 7 ∧
    updateMsg7.data.drop 4 = msgTick.data ∧
    (∃ m2, onMessage hostLE sampleOnRegister (Mux.empty.set 7 (.obj 102)) 1 unregisterMsg7
        = .finished m2 ∧
      m2.log = [.onUnregister 102 1 unregisterMsg7, .silentUnregister 102 1, .mapErase 7] ∧
      m2.networkEntities 7 = none ∧
      ∃ m3, onMessage hostLE sampleOnRegister m2 1 updateMsg7 = .nullCall m3 ∧
        m3.log = m2.log ++ [.mapInsert 7] ∧ m3.networkEntities 7 = some .null) :=
  ⟨⟨_, rfl, rfl, rfl⟩, by decide, by decide, by decide,
    ⟨_, rfl, rfl, rfl, ⟨_, rfl, rfl, rfl⟩⟩⟩

/-- C13 (counterexample). With id 7 bound to the entity at address 50, the
UPDATE message whose data is the header of id 7 followed by "tick" is handed to
the entity whole: the one callback is `onUpdate(updateMsg7)`, and there is no
way to read the dispatch as handing over a message whose content is just
"tick". -/
theorem update_passes_header :
    onMessage hostLE sampleOnRegister mux7 1 updateMsg7 =
      .finished (mux7.record (.onUpdate 50 updateMsg7)) ∧
    updateMsg7.data = intBytes hostLE.endian 7 ++ msgTick.data ∧
    ¬ ∃ m1 handed, onMessage hostLE sampleOnRegister mux7 1 updateMsg7 = .finished m1 ∧
      m1.log = mux7.log ++ [.onUpdate 50 handed] ∧ handed.data = msgTick.data := by
  refine ⟨rfl, by decide, ?_⟩
  rintro ⟨m1, handed, hrun, hlog, hdata⟩
  have hfin : onMessage hostLE sampleOnRegister mux7 1 updateMsg7 =
      .finished (mux7.record (.onUpdate 50 updateMsg7)) := rfl
  rw [hfin] at hrun
  injection hrun with hm
  subst hm
  simp only [Mux.record, List.append_cancel_left_eq, List.cons.injEq, Event.onUpdate.injEq,
    true_and, and_true] at hlog
  subst hlog
  revert hdata
  decide

/-- C13 (amended). UPDATE dispatch hands the entity the wire message as
received: when id is bound to the entity E and the UPDATE message has as data
the 4 bytes of id followed by the bytes p, `onMessage` invokes E's update
callback, once and as its only action, with that same message, whose data is
the 4-byte header followed by p. -/
theorem update_hands_whole_message (h : Host)
    (onRegister : Int → Int → Session → Message → EntityPtr)
    (m : Mux) (session : Session) (msg : Message) (id : Int) (E : Nat) (p : List Byte)
    (hid : isInt id) (htype : msg.type = .MSG_TYPE_UPDATE)
    (hdata : msg.data = intBytes h.endian id ++ p)
    (hE : m.networkEntities id = some (.obj E)) :
    ∃ m1 handed, onMessage h onRegister m session msg = .finished m1 ∧
      m1.log = m.log ++ [.onUpdate E handed] ∧ handed = msg ∧
      handed.data = intBytes h.endian id ++ p ∧ handed.data.drop 4 = p := by
  refine ⟨m.record (.onUpdate E msg), msg, ?_, rfl, rfl, hdata, ?_⟩
  · rw [update_case htype (readInt_intBytes_data h.endian hid hdata), callEntity_bound hE]
  · rw [hdata, drop_intBytes_append]

/-- C13 (witness). Id 7 bound to the entity at address 50 and the UPDATE
message for id 7 with payload "tick" satisfy the hypotheses. -/
theorem update_hands_whole_message_witness :
    isInt 7 ∧ updateMsg7.type = .MSG_TYPE_UPDATE ∧
    updateMsg7.data = intBytes hostLE.endian 7 ++ msgTick.data ∧
    mux7.networkEntities 7 = some (.obj 50) ∧
    ∃ m1 handed, onMessage hostLE sampleOnRegister mux7 1 updateMsg7 = .finished m1 ∧
      m1.log = mux7.log ++ [.onUpdate 50 handed] ∧ handed = updateMsg7 ∧
      handed.data = intBytes hostLE.endian 7 ++ msgTick.data ∧
      handed.data.drop 4 = msgTick.data :=
  ⟨by decide, by decide, by decide, by decide,
    update_hands_whole_message hostLE sampleOnRegister mux7 1 updateMsg7 7 50 msgTick.data
      (by decide) (by decide) (by decide) (by decide)⟩

/-- C14 (counterexample). With id 7 bound to the entity at address 50, the
REGISTER message for id 7 arriving from session 1 makes that entity receive
`silentRegister(1)`: whether its session-association set was empty or held
session 1 before, session 1 is in it after the dispatch. -/
theorem register_does_not_disassociate :
    ∃ m1, onMessage hostLE sampleOnRegister mux7 1 registerMsg7 = .finished m1 ∧
      m1.log = [.silentRegister 50 1, .onRegister 7 2 1 registerMsg7,
        .mapAssign 7 (.obj 102)] ∧
      1 ∈ sessionsOf 50 [] m1.log ∧ 1 ∈ sessionsOf 50 [1] m1.log :=
  ⟨_, rfl, rfl, by decide, by decide⟩

/-- C14 (amended). Join on re-registration: with `silentRegister(s)` adding s
to an entity's session-association set and `silentUnregister(s)` removing it,
when id is bound to the entity E_old and a REGISTER message for id arrives from
session s, the first thing `onMessage` does is E_old's `silentRegister(s)`, an
association, and nothing it does afterwards is a silent notification: after the
dispatch s is in E_old's session-association set, whatever the set was before. -/
theorem register_associates_old_entity (h : Host)
    (onRegister : Int → Int → Session → Message → EntityPtr)
    (m : Mux) (s : Session) (msg : Message) (id : Int) (E_old : Nat)
    (htype : msg.type = .MSG_TYPE_REGISTER)
    (hid : readInt h.endian msg.data 0 = some id)
    (hE : m.networkEntities id = some (.obj E_old)) :
    ∃ rest, (onMessage h onRegister m s msg).mux.log =
        m.log ++ Event.silentRegister E_old s :: rest ∧
      (∀ ev ∈ rest, ∀ e x, ev ≠ .silentRegister e x ∧ ev ≠ .silentUnregister e x) ∧
      ∀ init, s ∈ sessionsOf E_old init (Event.silentRegister E_old s :: rest) := by
  have h1 := callEntity_bound hE (fun e => Event.silentRegister e s)
  cases hr : readInt h.endian msg.data 4 with
  | none =>
    refine ⟨[], ?_, ?_, ?_⟩
    · unfold onMessage
      simp only [htype, hid, h1, hr, Outcome.andThen, Outcome.mux, Mux.record]
    · intro ev hev
      cases hev
    · intro init
      exact mem_associate_silentRegister E_old init s
  | some T =>
    refine ⟨[.onRegister id T s msg, .mapAssign id (onRegister id T s msg)], ?_, ?_, ?_⟩
    · unfold onMessage
      simp only [htype, hid, h1, hr, Outcome.andThen, Outcome.mux, Mux.assignRegistered,
        Mux.subscript, Mux.record, Mux.set, hE, List.append_assoc, List.singleton_append,
        List.cons_append, List.nil_append]
    · intro ev hev e x
      simp only [List.mem_cons, List.mem_singleton, List.not_mem_nil, or_false] at hev
      rcases hev with rfl | rfl <;> exact ⟨by simp, by simp⟩
    · intro init
      exact mem_associate_silentRegister E_old init s

/-- C14 (witness). Id 7 bound to the entity at address 50 and the REGISTER
message for id 7 arriving from session 1 satisfy the hypotheses. -/
theorem register_associates_old_entity_witness :
    registerMsg7.type = .MSG_TYPE_REGISTER ∧
    readInt hostLE.endian registerMsg7.data 0 = some 7 ∧
    mux7.networkEntities 7 = some (.obj 50) ∧
    ∃ rest, (onMessage hostLE sampleOnRegister mux7 1 registerMsg7).mux.log =
        mux7.log ++ Event.silentRegister 50 1 :: rest ∧
      (∀ ev ∈ rest, ∀ e x, ev ≠ .silentRegister e x ∧ ev ≠ .silentUnregister e x) ∧
      ∀ init, 1 ∈ sessionsOf 50 init (Event.silentRegister 50 1 :: rest) :=
  ⟨by decide, by decide, by decide,
    register_associates_old_entity hostLE sampleOnRegister mux7 1 registerMsg7 7 50
      (by decide) (by decide) (by decide)⟩

/-- C15. UPDATE keeps the binding: when id is bound to the entity E, an UPDATE
message carrying id in its header makes `onMessage` run to the end having
invoked E's update callback exactly once and nothing else, with the whole
registry unchanged; hence any sequence of such UPDATE dispatches, from any
sessions, runs to the end, every one of them reaches the same entity E, in
order, and the registry is still unchanged, id still bound to E. -/
theorem update_keeps_binding (h : Host)
    (onRegister : Int → Int → Session → Message → EntityPtr)
    (m : Mux) (id : Int) (E : Nat) (hE : m.networkEntities id = some (.obj E)) :
    (∀ (session : Session) (msg : Message), msg.type = .MSG_TYPE_UPDATE →
      readInt h.endian msg.data 0 = some id →
      ∃ m1, onMessage h onRegister m session msg = .finished m1 ∧
        m1.log = m.log ++ [.onUpdate E msg] ∧ m1.networkEntities = m.networkEntities) ∧
    (∀ batch : List (Session × Message),
      (∀ p ∈ batch, p.2.type = .MSG_TYPE_UPDATE ∧ readInt h.endian p.2.data 0 = some id) →
      ∃ m1, dispatchAll h onRegister m batch = .finished m1 ∧
        m1.log = m.log ++ batch.map (fun p => Event.onUpdate E p.2) ∧
        m1.networkEntities = m.networkEntities ∧
        m1.networkEntities id = some (.obj E)) := by
  constructor
  · intro session msg htype hid
    exact ⟨m.record (.onUpdate E msg),
      by rw [update_case htype hid, callEntity_bound hE], rfl, rfl⟩
  · intro batch hall
    exact ⟨_, dispatchAll_updates h onRegister id E batch m hE hall, rfl, rfl, hE⟩

/-- C15 (witness). With id 7 bound to the entity at address 50, two UPDATE
messages for id 7, from sessions 1 and 2, both reach that entity and leave the
registry as it was. -/
theorem update_keeps_binding_witness :
    mux7.networkEntities 7 = some (.obj 50) ∧
    ∃ m1, dispatchAll hostLE sampleOnRegister mux7 [(1, updateMsg7), (2, updateMsg7)]
        = .finished m1 ∧
      m1.log = mux7.log ++
        [(1, updateMsg7), (2, updateMsg7)].map (fun p => Event.onUpdate 50 p.2) ∧
      m1.networkEntities = mux7.networkEntities ∧
      m1.networkEntities 7 = some (.obj 50) :=
  ⟨by decide,
    (update_keeps_binding hostLE sampleOnRegister mux7 7 50 (by decide)).2
      [(1, updateMsg7), (2, updateMsg7)] (by decide)⟩

/-- C16. Internal forwarding agrees with dispatch: in every state of the
registry, for every session and every UPDATE message whose first 4 bytes decode
to id, `onUpdate(id, msg)` and `onMessage(session, msg)` have the same outcome:
the same callback with the same message and the same registry when id is bound
to an entity, and the same failure (a null entry created for id and `onUpdate`
called through it) when id has no entry. -/
theorem forwarding_agrees_with_dispatch (h : Host)
    (onRegister : Int → Int → Session → Message → EntityPtr)
    (m : Mux) (session : Session) (msg : Message) (id : Int)
    (htype : msg.type = .MSG_TYPE_UPDATE)
    (hid : readInt h.endian msg.data 0 = some id) :
    onUpdate m id msg = onMessage h onRegister m session msg ∧
    (∀ E, m.networkEntities id = some (.obj E) →
      onUpdate m id msg = .finished (m.record (.onUpdate E msg))) ∧
    (m.networkEntities id = none →
      onUpdate m id msg = .nullCall ((m.set id .null).record (.mapInsert id))) := by
  refine ⟨?_, ?_, ?_⟩
  · rw [update_case htype hid]
    rfl
  · intro E hE
    exact callEntity_bound hE _
  · intro hE
    exact callEntity_absent hE _

/-- C16 (witness). The UPDATE message for id 7 satisfies the hypotheses; on the
multiplexer as constructed, where id 7 has no entry, forwarding and dispatch
fail alike. -/
theorem forwarding_agrees_with_dispatch_witness :
    updateMsg7.type = .MSG_TYPE_UPDATE ∧ readInt hostLE.endian updateMsg7.data 0 = some 7 ∧
    onUpdate Mux.empty 7 updateMsg7 =
      onMessage hostLE sampleOnRegister Mux.empty 1 updateMsg7 :=
  ⟨by decide, by decide,
    (forwarding_agrees_with_dispatch hostLE sampleOnRegister Mux.empty 1 updateMsg7 7
      (by decide) (by decide)).1⟩

/-- C17. Registry frame of dispatch: for every registry, every session, every
two distinct ids i and j and every message whose header id is i (UPDATE,
REGISTER, UNREGISTER, or any other type), `onMessage` leaves the registry entry
of j as it was, absent if it was absent and bound to the same entity if it was
bound. This holds of the state the call ends in however it ends; and when i is
bound to an entity and the header can be read in full, the call does run to the
end. -/
theorem dispatch_frame (h : Host) (onRegister : Int → Int → Session → Message → EntityPtr)
    (m : Mux) (session : Session) (msg : Message) (i j : Int) (hij : i ≠ j)
    (hid : readInt h.endian msg.data 0 = some i) :
    (onMessage h onRegister m session msg).mux.networkEntities j = m.networkEntities j ∧
    (∀ E, m.networkEntities i = some (.obj E) →
      (msg.type = .MSG_TYPE_REGISTER → readInt h.endian msg.data 4 ≠ none) →
      ∃ m1, onMessage h onRegister m session msg = .finished m1 ∧
        m1.networkEntities j = m.networkEntities j) := by
  have hframe := onMessage_frame h onRegister m session msg (Ne.symm hij) hid
  refine ⟨hframe, ?_⟩
  intro E hE hty
  obtain ⟨m1, hm1⟩ := onMessage_finishes h onRegister m session msg hid hE hty
  refine ⟨m1, hm1, ?_⟩
  rw [hm1] at hframe
  exact hframe

/-- C17 (witness). Ids 7 and 8 are distinct and the UNREGISTER message carries
id 7: with id 7 bound, the entry of id 8 (absent) is as it was afterwards. -/
theorem dispatch_frame_witness :
    (7 : Int) ≠ 8 ∧ readInt hostLE.endian unregisterMsg7.data 0 = some 7 ∧
    (onMessage hostLE sampleOnRegister mux7 1 unregisterMsg7).mux.networkEntities 8 =
      mux7.networkEntities 8 :=
  ⟨by decide, by decide,
    (dispatch_frame hostLE sampleOnRegister mux7 1 unregisterMsg7 7 8
      (by decide) (by decide)).1⟩

/-- C18. Forwarded unregister does not unbind: when id is bound to the entity
E, `onUnregister(id, s, msg)` runs to the end having invoked E's
`onUnregister(s, msg)` exactly once and nothing else (no `silentUnregister`, no
`erase`), and the registry is unchanged, id still bound to E. -/
theorem forwarded_unregister_keeps_binding (m : Mux) (id : Int) (s : Session) (msg : Message)
    (E : Nat) (hE : m.networkEntities id = some (.obj E)) :
    ∃ m1, onUnregister m id s msg = .finished m1 ∧
      m1.log = m.log ++ [.onUnregister E s msg] ∧
      m1.networkEntities = m.networkEntities ∧
      m1.networkEntities id = some (.obj E) :=
  ⟨m.record (.onUnregister E s msg), callEntity_bound hE _, rfl, rfl, hE⟩

/-- C18 (witness). With id 7 bound to the entity at address 50, the forwarded
unregister for session 1 leaves id 7 bound. -/
theorem forwarded_unregister_keeps_binding_witness :
    mux7.networkEntities 7 = some (.obj 50) ∧
    ∃ m1, onUnregister mux7 7 1 unregisterMsg7 = .finished m1 ∧
      m1.log = mux7.log ++ [.onUnregister 50 1 unregisterMsg7] ∧
      m1.networkEntities = mux7.networkEntities ∧
      m1.networkEntities 7 = some (.obj 50) :=
  ⟨by decide, forwarded_unregister_keeps_binding mux7 7 1 unregisterMsg7 50 (by decide)⟩

/-- C19. Header reads stay in bounds on encoder output: for every id, type
code and input message with `len >= 0`, every wire message built by `update` or
`unregisterSession` has at least 4 bytes of data and every one built by
`registerSession` at least 8, so `onMessage`, on whatever registry and from
whatever session, never ends in a header load past the end of such a message.
The encoders do build a message when moreover `len` does not exceed the size of
the input data and `len` plus the header size does not exceed INT_MAX. -/
theorem header_reads_in_bounds (h : Host) (id type : Int) (sessions : SessionSet)
    (session : Session) (msg : Message) (hlen : 0 ≤ msg.len) :
    (∀ sent, update h id sessions msg = some sent → ∀ p ∈ sent,
      4 ≤ p.2.data.length ∧ readInt h.endian p.2.data 0 ≠ none ∧
      ∀ onRegister m s m1, onMessage h onRegister m s p.2 ≠ .badRead m1) ∧
    (∀ sent, unregisterSession h id session msg = some sent → ∀ p ∈ sent,
      4 ≤ p.2.data.length ∧ readInt h.endian p.2.data 0 ≠ none ∧
      ∀ onRegister m s m1, onMessage h onRegister m s p.2 ≠ .badRead m1) ∧
    (∀ sent, registerSession h id type session msg = some sent → ∀ p ∈ sent,
      8 ≤ p.2.data.length ∧ readInt h.endian p.2.data 0 ≠ none ∧
      readInt h.endian p.2.data 4 ≠ none ∧
      ∀ onRegister m s m1, onMessage h onRegister m s p.2 ≠ .badRead m1) ∧
    (msg.len.toNat ≤ msg.data.length → msg.len + 4 ≤ INT_MAX →
      update h id sessions msg ≠ none ∧ unregisterSession h id session msg ≠ none) ∧
    (msg.len.toNat ≤ msg.data.length → msg.len + 8 ≤ INT_MAX →
      registerSession h id type session msg ≠ none) := by
  have hfour : ∀ t, t ≠ MsgType.MSG_TYPE_REGISTER →
      4 ≤ (wireOf t (intBytes h.endian id) msg).data.length ∧
      readInt h.endian (wireOf t (intBytes h.endian id) msg).data 0 ≠ none ∧
      ∀ onRegister m s m1,
        onMessage h onRegister m s (wireOf t (intBytes h.endian id) msg) ≠ .badRead m1 := by
    intro t ht
    have hl := wireOf_length t (intBytes h.endian id) msg
    rw [intBytes_length] at hl
    have hr := readInt_ne_none h.endian (wireOf t (intBytes h.endian id) msg).data 0
      (by omega)
    refine ⟨hl, hr, ?_⟩
    intro onRegister m s m1 hb
    rcases onMessage_badRead hb with hn | ⟨hreg, -⟩
    · exact hr hn
    · exact ht hreg
  refine ⟨?_, ?_, ?_, ?_, ?_⟩
  · intro sent hs p hp
    rw [update_some h id sessions msg (update_some_imp hs)] at hs
    cases hs
    obtain ⟨s, -, rfl⟩ := List.mem_map.mp hp
    exact hfour _ (by decide)
  · intro sent hs p hp
    rw [unregisterSession_some h id session msg (unregisterSession_some_imp hs)] at hs
    cases hs
    rw [List.mem_singleton] at hp
    subst hp
    exact hfour _ (by decide)
  · intro sent hs p hp
    rw [registerSession_some h id type session msg (registerSession_some_imp hs)] at hs
    cases hs
    rw [List.mem_singleton] at hp
    subst hp
    have hl := wireOf_length .MSG_TYPE_REGISTER
      (intBytes h.endian id ++ intBytes h.endian type) msg
    rw [List.length_append, intBytes_length, intBytes_length] at hl
    have hr0 := readInt_ne_none h.endian
      (wireOf .MSG_TYPE_REGISTER (intBytes h.endian id ++ intBytes h.endian type) msg).data 0
      (by omega)
    have hr4 := readInt_ne_none h.endian
      (wireOf .MSG_TYPE_REGISTER (intBytes h.endian id ++ intBytes h.endian type) msg).data 4
      (by omega)
    refine ⟨hl, hr0, hr4, ?_⟩
    intro onRegister m s m1 hb
    rcases onMessage_badRead hb with hn | ⟨-, hn⟩
    · exact hr0 hn
    · exact hr4 hn
  · intro hsz hmax
    have he : encodable 4 msg := ⟨hlen, hsz, hmax⟩
    rw [update_some h id sessions msg he, unregisterSession_some h id session msg he]
    exact ⟨Option.some_ne_none _, Option.some_ne_none _⟩
  · intro hsz hmax
    rw [registerSession_some h id type session msg ⟨hlen, hsz, hmax⟩]
    exact Option.some_ne_none _

/-- C19 (witness). The payload "hi" has a non-negative length field; the one
message `registerSession` builds for it has at least 8 bytes and both header
loads succeed on it. -/
theorem header_reads_in_bounds_witness :
    0 ≤ msgHi.len ∧
    registerSession hostLE 7 2 1 msgHi = some [(1, registerMsg7)] ∧
    ∀ sent, registerSession hostLE 7 2 1 msgHi = some sent → ∀ p ∈ sent,
      8 ≤ p.2.data.length ∧ readInt hostLE.endian p.2.data 0 ≠ none ∧
      readInt hostLE.endian p.2.data 4 ≠ none ∧
      ∀ onRegister m s m1, onMessage hostLE onRegister m s p.2 ≠ .badRead m1 :=
  ⟨by decide, by decide,
    (header_reads_in_bounds hostLE 7 2 sessions123 1 msgHi (by decide)).2.2.1⟩

end Networking
